import Mathlib

/-!
# Verification of the CSV / SQLite REPL (`sql.py`)

This file is a shallow embedding, in Lean 4, of the core logic of the
program `sql.py`: a read-eval-print loop for executing SQLite queries with
support for importing and exporting CSV files.  The embedded components are

* `to_db_value`   — CSV-cell type inference ("ValueCoercer");
* `to_column_names` — derivation of unique SQL column names ("ColumnNamer");
* `import_` / `importLoop` — batched CSV import ("Importer");
* `export_` / `exportLoop` — streaming CSV export ("Exporter");
* `print_table` / `execute_sql` — result preview ("ResultPresenter" and
  "QueryRunner");
* `replStep` / `run_repl` — the last-query bookkeeping of the REPL.

Python's runtime primitives (`int(str)`, `float(str)`, `float(int)`,
f-string formatting of naturals) are embedded explicitly below.  Machine
floating point is abstracted: a Python `float` is modelled by `PyFloat`,
carrying the exact rational value of the literal (IEEE-754 rounding, which
is not observable in any property proved here, is elided), while the
`OverflowError` raised by the int-to-float conversion — which *is*
observable, since `to_db_value` only catches `ValueError` — is modelled
exactly, with its true threshold `2^1024 - 2^970` (the smallest magnitude
that rounds outside the double range).  Fallible computations return
`Except String α`, an `.error` modelling a raised exception.
-/

/-! ## Python runtime primitives -/

/-- The ASCII whitespace characters stripped by Python's `int()` and
`float()` before parsing.  (Python also strips non-ASCII Unicode
whitespace; no input considered here contains any.) -/
def pySpace (c : Char) : Bool :=
  c = ' ' ∨ c = '\t' ∨ c = '\n' ∨ c = '\r' ∨ c = '\x0b' ∨ c = '\x0c'

/-- Strip leading and trailing whitespace, as `int()`/`float()` do. -/
def pyStrip (l : List Char) : List Char :=
  ((l.dropWhile pySpace).reverse.dropWhile pySpace).reverse

/-- Decimal digit value. -/
def digitVal (c : Char) : Nat := c.toNat - '0'.toNat

/-- Continuation of a digit run in a Python numeric literal: digits, with a
single underscore allowed only between two digits. The accumulator holds the
value of the digits read so far; the second component counts the digits. -/
def pyDigitsAux (acc : Nat) (cnt : Nat) : List Char → Option (Nat × Nat)
  | [] => some (acc, cnt)
  | '_' :: c :: rest =>
    if c.isDigit then pyDigitsAux (10 * acc + digitVal c) (cnt + 1) rest else none
  | '_' :: [] => none
  | c :: rest =>
    if c.isDigit then pyDigitsAux (10 * acc + digitVal c) (cnt + 1) rest else none

/-- A nonempty digit run (underscores allowed between digits), as accepted
inside Python's `int()` and `float()`; returns its value and digit count. -/
def pyDigits : List Char → Option (Nat × Nat)
  | c :: rest => if c.isDigit then pyDigitsAux (digitVal c) 1 rest else none
  | [] => none

/-- Embedding of Python's `int(str)`: optional surrounding whitespace, an
optional sign, then a digit run.  `none` models a raised `ValueError`. -/
def pyIntOfString (s : String) : Option Int :=
  match pyStrip s.data with
  | '+' :: rest => (pyDigits rest).map fun p => (p.1 : Int)
  | '-' :: rest => (pyDigits rest).map fun p => -(p.1 : Int)
  | rest => (pyDigits rest).map fun p => (p.1 : Int)

/-- A Python `float` value: a finite value (carried as the exact rational of
its source, see the header comment), an infinity, or a NaN. -/
inductive PyFloat where
  | finite (q : ℚ)
  | inf
  | negInf
  | nan
deriving DecidableEq, Repr

/-- Case-insensitive keyword match (for `inf` / `infinity` / `nan`). -/
def lowerEq (l : List Char) (kw : List Char) : Bool :=
  l.map Char.toLower = kw

/-- The unsigned part of a Python float literal: `inf`, `infinity`, `nan`
(case-insensitive), or `digits [. digits] [(e|E) [sign] digits]` where the
integer part and the fractional part may each be empty but not both.
Underscores follow the same rule as in `int()`. -/
def pyFloatBody (l : List Char) : Option PyFloat :=
  if lowerEq l ['i', 'n', 'f'] ∨ lowerEq l ['i', 'n', 'f', 'i', 'n', 'i', 't', 'y'] then
    some .inf
  else if lowerEq l ['n', 'a', 'n'] then
    some .nan
  else
    let mantissa := l.takeWhile fun c => ¬(c = 'e' ∨ c = 'E')
    let expPart := l.dropWhile fun c => ¬(c = 'e' ∨ c = 'E')
    let intChars := mantissa.takeWhile (· ≠ '.')
    let fracTail := mantissa.dropWhile (· ≠ '.')
    let fracChars := fracTail.drop 1
    if '.' ∈ fracChars then none
    else
      let intPart? : Option (Nat × Nat) :=
        if intChars = [] then some (0, 0) else pyDigits intChars
      let fracPart? : Option (Nat × Nat) :=
        if fracChars = [] ∧ fracTail ≠ [] then some (0, 0)
        else if fracTail = [] then some (0, 0)
        else pyDigits fracChars
      let exp? : Option Int :=
        match expPart with
        | [] => some 0
        | _ :: '+' :: rest => (pyDigits rest).map fun p => (p.1 : Int)
        | _ :: '-' :: rest => (pyDigits rest).map fun p => -(p.1 : Int)
        | _ :: rest => (pyDigits rest).map fun p => (p.1 : Int)
      match intPart?, fracPart?, exp? with
      | some (iv, icnt), some (fv, fcnt), some e =>
        if icnt = 0 ∧ fcnt = 0 then none
        else some (.finite (((iv : ℚ) + (fv : ℚ) / 10 ^ fcnt) * 10 ^ (e : ℤ)))
      | _, _, _ => none

/-- Embedding of Python's `float(str)`: optional surrounding whitespace, an
optional sign, then a float body.  `none` models a raised `ValueError`. -/
def pyFloatOfString (s : String) : Option PyFloat :=
  match pyStrip s.data with
  | '+' :: rest => pyFloatBody rest
  | '-' :: rest =>
    (pyFloatBody rest).map fun f =>
      match f with
      | .finite q => .finite (-q)
      | .inf => .negInf
      | .negInf => .inf
      | .nan => .nan
  | rest => pyFloatBody rest

/-- The smallest magnitude of an integer whose conversion to a double
overflows: everything at least `2^1024 - 2^970` rounds to `±2^1024`, and
CPython's `float(int)` then raises `OverflowError`. -/
def doubleOverflowBound : Nat := 2 ^ 1024 - 2 ^ 970

/-- Embedding of Python's `float(int)`.  Raises `OverflowError` — which is
*not* a `ValueError` — when the magnitude reaches `doubleOverflowBound`;
otherwise the finite result (exact value carried, rounding elided). -/
def pyFloatOfInt (v : Int) : Except String PyFloat :=
  if doubleOverflowBound ≤ v.natAbs then
    .error "OverflowError: int too large to convert to float"
  else
    .ok (.finite (v : ℚ))

deriving instance DecidableEq for Except

/-! ## ValueCoercer: `to_db_value` -/

/-- The typed value stored for one CSV cell (`None` / `int` / `float` /
`str` in the source). -/
inductive TypedValue where
  | Null
  | Integer (n : Int)
  | Float (f : PyFloat)
  | Text (s : String)
deriving DecidableEq, Repr

/-- The currency characters tested by `str_[0] in '$€\xa5\xa3'`. -/
def currencyChars : List Char := ['$', '€', '¥', '£']

/-- `str_without_currency`: the cell with one leading currency symbol
removed, if present. -/
def stripCurrency (s : String) : String :=
  match s.data with
  | c :: rest => if c ∈ currencyChars then ⟨rest⟩ else s
  | [] => s

/-- Embedding of `to_db_value` (sql.py, lines 41-62): `''` maps to `Null`;
otherwise one leading currency symbol is stripped, an integer parse is
attempted (in-range results are `Integer`, out-of-range results are
converted with `pyFloatOfInt`, whose `OverflowError` escapes the
`except ValueError` handler), then a float parse, then the fallback to
`Text` of the *original* string. -/
def to_db_value (str_ : String) : Except String TypedValue :=
  if str_ = "" then .ok .Null
  else
    let str_without_currency := stripCurrency str_
    match pyIntOfString str_without_currency with
    | some value =>
      if -2 ^ 63 ≤ value ∧ value < 2 ^ 63 then .ok (.Integer value)
      else (pyFloatOfInt value).map .Float
    | none =>
      match pyFloatOfString str_without_currency with
      | some f => .ok (.Float f)
      | none => .ok (.Text str_)

/-! ## Decimal formatting

Python's f-strings render naturals in decimal (`f'{str_}{suffix}'`,
`f'Imported {count} rows...'`).  `natRepr` embeds that rendering; it is
defined with structural fuel so that it evaluates by kernel reduction. -/

/-- Decimal digits of `n`, most significant first, provided `n < fuel`. -/
def natReprAux : Nat → Nat → List Char
  | 0, _ => []
  | fuel + 1, n =>
    if n < 10 then [Nat.digitChar n]
    else natReprAux fuel (n / 10) ++ [Nat.digitChar (n % 10)]

/-- The decimal rendering of a natural, as produced by Python's `str`. -/
def natRepr (n : Nat) : String := ⟨natReprAux (n + 1) n⟩

/-! ## ColumnNamer: `to_column_names` -/

/-- One step of `re.sub(r'[^a-z0-9_]', '_', str_.lower())`: lowercase the
character, then replace it by `'_'` unless it lies in `[a-z0-9_]`. -/
def substituteChar (c : Char) : Char :=
  let l := c.toLower
  if ('a' ≤ l ∧ l ≤ 'z') ∨ ('0' ≤ l ∧ l ≤ '9') ∨ l = '_' then l else '_'

/-- The scanning state of `re.sub(r'(?<=_)_+', '', str_)`: a character is
deleted exactly when it is an underscore whose predecessor in the original
string is an underscore.  `prev` is the preceding original character. -/
def removeReUnderscoreGo (prev : Char) : List Char → List Char
  | [] => []
  | c :: rest =>
    if prev = '_' ∧ c = '_' then removeReUnderscoreGo c rest
    else c :: removeReUnderscoreGo c rest

/-- Embedding of `re.sub(r'(?<=_)_+', '', str_)` on the character list. -/
def removeReUnderscore : List Char → List Char
  | [] => []
  | c :: rest => c :: removeReUnderscoreGo c rest

/-- The normalized base name of one header entry (sql.py, lines 29-30). -/
def normalizeHeader (s : String) : String :=
  ⟨removeReUnderscore (s.data.map substituteChar)⟩

/-- Modelled from the spec's wording for the amended collapsing rule, for
comparison with `removeReUnderscore`: rewrite every maximal run of
underscores, wherever it occurs, to a single underscore. -/
def collapseUnderscoreRuns : List Char → List Char
  | [] => []
  | c :: rest =>
    if c = '_' then '_' :: collapseUnderscoreRuns (rest.dropWhile (· = '_'))
    else c :: collapseUnderscoreRuns rest
termination_by l => l.length
decreasing_by
  · exact Nat.lt_succ_of_le (List.dropWhile_sublist _).length_le
  · exact Nat.lt_succ_of_le (Nat.le_refl _)

/-- An upper bound for the lengths of the strings in `seen`. -/
def maxLen (seen : List String) : Nat :=
  seen.foldr (fun s m => max s.length m) 0

/-- The suffix-search loop `while f'{str_}{suffix}' in column_name_set`,
with structural fuel (the fuel chosen in `freshName` is large enough that
the loop always exits by finding an unused name, see
`freshNameAux_not_mem`). -/
def freshNameAux (base : String) (seen : List String) : Nat → Nat → String
  | suffix, 0 => base ++ natRepr suffix
  | suffix, fuel + 1 =>
    if base ++ natRepr suffix ∈ seen then freshNameAux base seen (suffix + 1) fuel
    else base ++ natRepr suffix

/-- The fresh suffixed name chosen for a repeated base name. -/
def freshName (base : String) (seen : List String) : String :=
  freshNameAux base seen 2 (10 ^ (maxLen seen + 1))

/-- The loop body of `to_column_names`, with `seen` playing the role of
`column_name_set` (the Python set, modelled by the list of names chosen so
far; only membership is ever queried). -/
def to_column_names_aux : List String → List String → List String
  | [], _ => []
  | s :: rest, seen =>
    let base := normalizeHeader s
    let name := if base ∈ seen then freshName base seen else base
    name :: to_column_names_aux rest (name :: seen)

/-- Embedding of `to_column_names` (sql.py, lines 16-38). -/
def to_column_names (row : List String) : List String :=
  to_column_names_aux row []

/-! ## Importer: `import_` -/

/-- One operation issued to the SQLite connection. -/
inductive DbOp where
  | execute (sql : String)
  | executemany (sql : String) (values : List (List TypedValue))
  | commit
deriving DecidableEq, Repr

/-- The quoted, comma-joined column list `("c1", "c2", ...)`. -/
def columnNamesSql (columnNames : List String) : String :=
  "(\"" ++ String.intercalate "\", \"" columnNames ++ "\")"

/-- The `CREATE TABLE` statement issued by the importer. -/
def createTableSql (tableName : String) (columnNames : List String) : String :=
  "CREATE TABLE \"" ++ tableName ++ "\" " ++ columnNamesSql columnNames ++ ";"

/-- The parameterized `INSERT` statement issued once per batch. -/
def insertSql (tableName : String) (columnNames : List String) : String :=
  "INSERT INTO \"" ++ tableName ++ "\" " ++ columnNamesSql columnNames ++
    " VALUES (" ++ String.intercalate ", " (columnNames.map fun _ => "?") ++ ");"

/-- `[to_db_value(str_) for str_ in row]`; an `.error` models the list
comprehension raising (only possible through `pyFloatOfInt`). -/
def rowValues (row : List String) : Except String (List TypedValue) :=
  row.mapM to_db_value

/-- The progress message printed at the top of every batch beyond the
first. -/
def importProgressMsg (count : Nat) : String :=
  "Imported " ++ natRepr count ++ " rows..."

/-- The batching loop of `import_` (sql.py, lines 92-107).  Returns the
printed messages, the operations issued to the connection, the final row
count, and the exception (if one was raised while coercing a batch).  Each
iteration takes up to 10000 rows (`itertools.islice(reader, 10000)`),
prints the running count if any batch came before, coerces every cell,
executes one multi-row insert and commits. -/
def importLoop (tableName : String) (columnNames : List String)
    (remaining : List (List String)) (count : Nat) :
    List String × List DbOp × Nat × Option String :=
  let rows := remaining.take 10000
  if rows.isEmpty then ([], [], count, none)
  else
    let msgs := if count > 0 then [importProgressMsg count] else []
    match rows.mapM rowValues with
    | .error e => (msgs, [], count + rows.length, some e)
    | .ok values =>
      let rest :=
        importLoop tableName columnNames (remaining.drop 10000) (count + rows.length)
      (msgs ++ rest.1,
       .executemany (insertSql tableName columnNames) values :: .commit :: rest.2.1,
       rest.2.2.1, rest.2.2.2)
termination_by remaining.length
decreasing_by
  rename_i h
  simp only [List.length_drop]
  have hne : remaining ≠ [] := by
    intro he
    apply h
    subst he
    rfl
  have hpos : 0 < remaining.length := List.length_pos.mpr hne
  omega

/-- The outcome of one `import` command: the messages printed, the
operations issued to the connection, and the exception raised (if any). -/
structure ImportOutcome where
  msgs : List String
  ops : List DbOp
  err : Option String
deriving DecidableEq, Repr

/-- Embedding of `import_` (sql.py, lines 65-111), beginning after the CSV
file has been read: `headerRow` is the parsed header line, `dataRows` the
remaining rows, `tableName` the prompted table name.  The empty-header
check precedes every connection operation; the quotation-mark check
precedes table creation; then the table is created, committed, and the
batch loop runs, followed by the two summary messages. -/
def import_ (headerRow : List String) (tableName : String)
    (dataRows : List (List String)) : ImportOutcome :=
  if "" ∈ headerRow then
    { msgs := [], ops := [],
      err := some ("There is no header in row 1, column " ++
        natRepr (headerRow.indexOf "" + 1)) }
  else
    let columnNames := to_column_names headerRow
    if '"' ∈ tableName.data then
      { msgs := [], ops := [],
        err := some ("The table name may not contain a quotation mark. Your entry " ++
          "will automatically be enclosed in quotation marks, so it " ++
          "should be an ordinary string rather than a quoted " ++
          "identifier.") }
    else
      let loop := importLoop tableName columnNames dataRows 0
      { msgs := loop.1 ++
          (if loop.2.2.2.isNone then
            ["Imported " ++ natRepr loop.2.2.1 ++ " row(s).",
             "Imported table \"" ++ tableName ++ "\" with columns: " ++
               String.intercalate ", " columnNames ++ "."]
          else []),
        ops := .execute (createTableSql tableName columnNames) :: .commit :: loop.2.1,
        err := loop.2.2.2 }

/-! ## Exporter: `export_` -/

/-- The progress message printed while exporting. -/
def exportProgressMsg (index : Nat) : String :=
  "Exported " ++ natRepr index ++ " rows..."

/-- The row-writing loop of `export_` (`for index, row in
enumerate(cursor)`).  Returns the rows written, the progress messages
printed, and the final value of the Python local variable `index` —
`none` when the loop body never ran and the variable was never bound. -/
def exportLoop {α : Type} : List α → Nat → Option Nat →
    List α × List String × Option Nat
  | [], _, lastIndex => ([], [], lastIndex)
  | row :: rest, index, _ =>
    let msgs := if index % 10000 = 0 ∧ index > 0 then [exportProgressMsg index] else []
    let next := exportLoop rest (index + 1) (some index)
    (row :: next.1, msgs ++ next.2.1, next.2.2)

/-- The outcome of one `export` command: the header and rows written to the
file (the file is opened and its header written before the loop, so it
exists even when an exception follows), the messages printed, and the
exception raised (if any). -/
structure ExportOutcome (α : Type) where
  fileHeader : List String
  fileRows : List α
  msgs : List String
  err : Option String
deriving DecidableEq, Repr

/-- Embedding of `export` (sql.py, lines 114-139), from the point where the
re-executed query has produced a cursor: `header` is the list of column
names, `rows` the result rows.  Each row is written as soon as it is
pulled; the final `print(f'Exported {index + 1} row(s).')` reads the loop
variable `index`, which is unbound when the cursor yielded no rows — in
that case the statement raises `UnboundLocalError`. -/
def export_ {α : Type} (header : List String) (rows : List α) : ExportOutcome α :=
  let loop := exportLoop rows 0 none
  match loop.2.2 with
  | some index =>
    { fileHeader := header, fileRows := loop.1,
      msgs := loop.2.1 ++ ["Exported " ++ natRepr (index + 1) ++ " row(s)."],
      err := none }
  | none =>
    { fileHeader := header, fileRows := loop.1, msgs := loop.2.1,
      err := some "UnboundLocalError: cannot access local variable index where it is not associated with a value" }

/-! ## ResultPresenter: `print_table` -/

/-- `str(value)` padded to `width` inside one pipe-delimited cell. -/
def padCell (value : String) (width : Nat) : String :=
  "| " ++ value ++ ⟨List.replicate (width - value.length) ' '⟩ ++ " "

/-- One printed line of the table. -/
def tableLine (row : List String) (widths : List Nat) : String :=
  String.join ((row.zip widths).map fun p => padCell p.1 p.2) ++ "|"

/-- The per-column maximum widths (`widths` in the source): starting from
`[0] * len(table[0])`, each row's rendered lengths are folded in. -/
def tableWidths (table : List (List String)) : List Nat :=
  table.foldl
    (fun widths row =>
      widths.zipWith (fun w p => max w p) (row.map String.length ++
        List.replicate (widths.length - row.length) 0))
    (List.replicate (table.headI.length) 0)

/-- Embedding of `print_table` (sql.py, lines 142-160): the list of printed
lines — nothing for an empty table, otherwise one pipe-delimited,
left-aligned line per row. -/
def print_table (table : List (List String)) : List String :=
  if table.isEmpty then []
  else table.map fun row => tableLine row (tableWidths table)

/-! ## QueryRunner: `execute_sql` -/

/-- A result cell as yielded by the cursor: `none` is SQL `NULL`, and
`some s` any other value, abstracted by its `str()` rendering. -/
abbrev ResultCell := Option String

/-- Embedding of `execute_sql` (sql.py, lines 163-211), given the state of
the executed cursor: `description` is the column-name list when the
statement produced a result descriptor (`cursor.description`), `resultRows`
the full result sequence the cursor would yield, and `rowcount` the
mutation count reported by the store (negative meaning "unknown").  Returns
the printed lines and the boolean the function returns.  The loop pulls at
most 20 rows, substituting `'NULL'` for null cells; `cursor.fetchone()`
after the loop yields a row exactly when more than 20 exist. -/
def execute_sql (description : Option (List String))
    (resultRows : List (List ResultCell)) (rowcount : Int) : List String × Bool :=
  let rows := (resultRows.take 20).map fun row =>
    row.map fun value => match value with | some s => s | none => "NULL"
  match description with
  | some header =>
    let summary :=
      if ¬rows.isEmpty then
        if 20 < resultRows.length then "Output first 20 rows."
        else "Output all " ++ natRepr rows.length ++ " row(s)."
      else "Query returned zero rows."
    (print_table (header :: rows) ++ [summary], true)
  | none =>
    (if 0 ≤ rowcount then ["Modified " ++ natRepr rowcount.toNat ++ " row(s)."]
     else ["Done."], false)

/-! ## The REPL: `run_repl` -/

/-- The observable outcomes of the three commands, as seen by the REPL
loop.  The SQLite connection and the file system are external
collaborators, so the REPL is parameterized by them: `sqlOutcome q` is what
`execute_sql q connection` does (raises, or prints and returns the
SELECT flag), `importOutcome` what `import_(connection)` does, and
`exportOutcome q` what `export(q, connection)` does. -/
structure ReplEnv where
  sqlOutcome : String → Except String (List String × Bool)
  importOutcome : Except String (List String)
  exportOutcome : String → Except String (List String)

/-- The effects of one REPL iteration: the new `last_query`, the messages
printed, and the queries passed to `export` (each such call opens the
destination file, so this list is the file-creation record). -/
def replStep (env : ReplEnv) (last_query : Option String) (query : String) :
    Option String × List String × List String :=
  if query = "import" then
    match env.importOutcome with
    | .ok msgs => (last_query, msgs, [])
    | .error e => (last_query, ["Error: " ++ e], [])
  else if query = "export" then
    match last_query with
    | some q =>
      match env.exportOutcome q with
      | .ok msgs => (last_query, msgs, [q])
      | .error e => (last_query, ["Error: " ++ e], [q])
    | none => (last_query, ["You must enter a SQL query before exporting."], [])
  else
    match env.sqlOutcome query with
    | .ok (msgs, true) => (some query, msgs, [])
    | .ok (msgs, false) => (last_query, msgs, [])
    | .error e => (last_query, ["Error: " ++ e], [])

/-- Embedding of the loop of `run_repl` (sql.py, lines 224-239) over a
finite list of input lines, threading `last_query` (initialized to `None`
at line 224) and accumulating printed messages and export calls. -/
def replLoop (env : ReplEnv) (last_query : Option String) :
    List String → Option String × List String × List String
  | [] => (last_query, [], [])
  | query :: queries =>
    let step := replStep env last_query query
    let rest := replLoop env step.1 queries
    (rest.1, step.2.1 ++ rest.2.1, step.2.2 ++ rest.2.2)

/-- `run_repl` on a list of input lines: the loop starts with
`last_query = None`. -/
def run_repl (env : ReplEnv) (queries : List String) :
    Option String × List String × List String :=
  replLoop env none queries

/-! ## Helper lemmas -/

theorem natReprAux_fuel (n : Nat) : ∀ f g, n < f → n < g →
    natReprAux f n = natReprAux g n := by
  induction n using Nat.strong_induction_on with
  | _ n ih =>
    intro f g hf hg
    match f, g, hf, hg with
    | f' + 1, g' + 1, hf, hg =>
      by_cases h10 : n < 10
      · simp [natReprAux, h10]
      · have hn0 : 0 < n := by omega
        have hdiv : n / 10 < n := Nat.div_lt_self hn0 (by omega)
        simp only [natReprAux, if_neg h10]
        rw [ih (n / 10) hdiv f' g' (by omega) (by omega)]

theorem natRepr_eq_of_ge_ten {n : Nat} (h : 10 ≤ n) :
    (natRepr n).data = (natRepr (n / 10)).data ++ [Nat.digitChar (n % 10)] := by
  have h1 : natReprAux (n + 1) n = natReprAux n (n / 10) ++ [Nat.digitChar (n % 10)] := by
    rw [natReprAux]
    simp [Nat.not_lt.mpr h]
  have h2 : natReprAux n (n / 10) = natReprAux (n / 10 + 1) (n / 10) :=
    natReprAux_fuel _ _ _ (Nat.div_lt_self (by omega) (by omega)) (Nat.lt_succ_self _)
  simp [natRepr, h1, h2]

theorem natRepr_pow_ten_length (m : Nat) : (natRepr (10 ^ m)).length = m + 1 := by
  induction m with
  | zero => decide
  | succ k ih =>
    have h10 : 10 ≤ 10 ^ (k + 1) := by
      calc 10 = 10 ^ 1 := by norm_num
      _ ≤ 10 ^ (k + 1) := Nat.pow_le_pow_right (by omega) (by omega)
    have hdiv : 10 ^ (k + 1) / 10 = 10 ^ k := by
      rw [Nat.pow_succ]
      exact Nat.mul_div_cancel _ (by omega)
    have hstep := natRepr_eq_of_ge_ten h10
    rw [hdiv] at hstep
    have hlen : (natRepr (10 ^ (k + 1))).length = (natRepr (10 ^ k)).length + 1 := by
      simp only [String.length]
      rw [hstep, List.length_append, List.length_cons, List.length_nil]
    rw [hlen, ih]

theorem natRepr_length_pos (n : Nat) : 0 < (natRepr n).length := by
  simp only [natRepr, String.length]
  rw [natReprAux]
  by_cases h : n < 10
  · simp [h]
  · simp [h]

theorem mem_le_maxLen {seen : List String} {t : String} (h : t ∈ seen) :
    t.length ≤ maxLen seen := by
  induction seen with
  | nil => cases h
  | cons s rest ih =>
    rcases List.mem_cons.mp h with rfl | hmem
    · exact le_max_left _ _
    · exact le_trans (ih hmem) (le_max_right _ _)

theorem freshNameAux_not_mem (base : String) (seen : List String) :
    ∀ fuel suffix, (∃ k ≤ fuel, base ++ natRepr (suffix + k) ∉ seen) →
      freshNameAux base seen suffix fuel ∉ seen := by
  intro fuel
  induction fuel with
  | zero =>
    intro suffix ⟨k, hk, hfree⟩
    have : k = 0 := Nat.le_zero.mp hk
    subst this
    simpa [freshNameAux] using hfree
  | succ f ih =>
    intro suffix ⟨k, hk, hfree⟩
    rw [freshNameAux]
    by_cases hmem : base ++ natRepr suffix ∈ seen
    · rw [if_pos hmem]
      apply ih
      have hk0 : k ≠ 0 := by
        intro h0
        subst h0
        simp at hfree
        exact hfree hmem
      exact ⟨k - 1, by omega, by
        have : suffix + 1 + (k - 1) = suffix + k := by omega
        rw [this]
        exact hfree⟩
    · rw [if_neg hmem]
      exact hmem

theorem freshName_not_mem (base : String) (seen : List String) :
    freshName base seen ∉ seen := by
  apply freshNameAux_not_mem
  refine ⟨10 ^ (maxLen seen + 1) - 2, Nat.sub_le _ _, ?_⟩
  intro hmem
  have hlen := mem_le_maxLen hmem
  rw [String.length_append] at hlen
  have h2 : 2 ≤ 10 ^ (maxLen seen + 1) := by
    calc 2 ≤ 10 ^ 1 := by norm_num
    _ ≤ 10 ^ (maxLen seen + 1) := Nat.pow_le_pow_right (by omega) (by omega)
  rw [Nat.add_sub_cancel' h2, natRepr_pow_ten_length] at hlen
  omega

theorem freshName_length_pos (base : String) (seen : List String) (fuel suffix : Nat) :
    0 < (freshNameAux base seen suffix fuel).length := by
  induction fuel generalizing suffix with
  | zero =>
    rw [freshNameAux, String.length_append]
    have := natRepr_length_pos suffix
    omega
  | succ f ih =>
    rw [freshNameAux]
    by_cases hmem : base ++ natRepr suffix ∈ seen
    · rw [if_pos hmem]; exact ih _
    · rw [if_neg hmem]
      rw [String.length_append]
      have := natRepr_length_pos suffix
      omega

theorem normalizeHeader_ne_empty {s : String} (h : s ≠ "") : normalizeHeader s ≠ "" := by
  intro hcon
  apply h
  cases hs : s.data with
  | nil =>
    cases s
    simp at hs
    simp [hs]
  | cons c rest =>
    exfalso
    have : (normalizeHeader s).data = [] := by rw [hcon]
    rw [normalizeHeader] at this
    simp only [hs, List.map_cons, removeReUnderscore] at this
    cases this

theorem freshName_ne_empty (base : String) (seen : List String) :
    freshName base seen ≠ "" := by
  intro hcon
  have := freshName_length_pos base seen (10 ^ (maxLen seen + 1)) 2
  rw [show freshNameAux base seen 2 (10 ^ (maxLen seen + 1)) = freshName base seen from rfl,
    hcon] at this
  simp [String.length] at this

theorem to_column_names_aux_length (rest : List String) :
    ∀ seen, (to_column_names_aux rest seen).length = rest.length := by
  induction rest with
  | nil => intro seen; rfl
  | cons s t ih =>
    intro seen
    simp only [to_column_names_aux, List.length_cons, ih]

theorem to_column_names_aux_not_mem (rest : List String) :
    ∀ seen, ∀ n ∈ to_column_names_aux rest seen, n ∉ seen := by
  induction rest with
  | nil => intro seen n hn; cases hn
  | cons s t ih =>
    intro seen n hn
    simp only [to_column_names_aux, List.mem_cons] at hn
    rcases hn with rfl | hn
    · by_cases hb : normalizeHeader s ∈ seen
      · simpa [hb] using freshName_not_mem (normalizeHeader s) seen
      · simp only [if_neg hb]
        exact hb
    · intro hmem
      exact ih _ n hn (List.mem_cons_of_mem _ hmem)

theorem to_column_names_aux_nodup (rest : List String) :
    ∀ seen, (to_column_names_aux rest seen).Nodup := by
  induction rest with
  | nil => intro seen; exact List.nodup_nil
  | cons s t ih =>
    intro seen
    simp only [to_column_names_aux]
    refine List.nodup_cons.mpr ⟨?_, ih _⟩
    intro hmem
    have := to_column_names_aux_not_mem t _ _ hmem
    simp at this

theorem to_column_names_aux_ne_empty (rest : List String) :
    ∀ seen, (∀ s ∈ rest, s ≠ "") → ∀ n ∈ to_column_names_aux rest seen, n ≠ "" := by
  induction rest with
  | nil => intro seen _ n hn; cases hn
  | cons s t ih =>
    intro seen hrest n hn
    simp only [to_column_names_aux, List.mem_cons] at hn
    rcases hn with rfl | hn
    · by_cases hb : normalizeHeader s ∈ seen
      · simpa [hb] using freshName_ne_empty (normalizeHeader s) seen
      · simpa [hb] using normalizeHeader_ne_empty (hrest s (List.mem_cons_self s t))
    · exact ih _ (fun x hx => hrest x (List.mem_cons_of_mem _ hx)) n hn

theorem collapseUnderscoreRuns_nil : collapseUnderscoreRuns [] = [] := by
  rw [collapseUnderscoreRuns]

theorem collapseUnderscoreRuns_cons (c : Char) (rest : List Char) :
    collapseUnderscoreRuns (c :: rest) =
      if c = '_' then '_' :: collapseUnderscoreRuns (rest.dropWhile (· = '_'))
      else c :: collapseUnderscoreRuns rest := by
  rw [collapseUnderscoreRuns]

theorem removeReUnderscoreGo_spec (l : List Char) :
    (removeReUnderscoreGo '_' l = collapseUnderscoreRuns (l.dropWhile (· = '_'))) ∧
    (∀ c, c ≠ '_' → removeReUnderscoreGo c l = collapseUnderscoreRuns l) := by
  induction l with
  | nil =>
    constructor
    · simp [removeReUnderscoreGo, collapseUnderscoreRuns_nil]
    · intro c _
      simp [removeReUnderscoreGo, collapseUnderscoreRuns_nil]
  | cons d rest ih =>
    constructor
    · by_cases hd : d = '_'
      · subst hd
        rw [removeReUnderscoreGo, if_pos ⟨rfl, rfl⟩,
          List.dropWhile_cons_of_pos (by simp)]
        exact ih.1
      · rw [removeReUnderscoreGo, if_neg (by simp [hd]),
          List.dropWhile_cons_of_neg (by simp [hd]), collapseUnderscoreRuns_cons,
          if_neg hd, ih.2 d hd]
    · intro c hc
      rw [removeReUnderscoreGo, if_neg (by simp [hc]), collapseUnderscoreRuns_cons]
      by_cases hd : d = '_'
      · subst hd
        rw [if_pos rfl, ih.1]
      · rw [if_neg hd, ih.2 d hd]

theorem removeReUnderscore_eq_collapse (l : List Char) :
    removeReUnderscore l = collapseUnderscoreRuns l := by
  cases l with
  | nil => simp [removeReUnderscore, collapseUnderscoreRuns_nil]
  | cons c rest =>
    rw [removeReUnderscore, collapseUnderscoreRuns_cons]
    by_cases hc : c = '_'
    · subst hc
      rw [if_pos rfl, (removeReUnderscoreGo_spec rest).1]
    · rw [if_neg hc, (removeReUnderscoreGo_spec rest).2 c hc]

theorem to_db_value_int_some {s : String} {n : Int} (hs : s ≠ "")
    (h : pyIntOfString (stripCurrency s) = some n) :
    to_db_value s =
      if -2 ^ 63 ≤ n ∧ n < 2 ^ 63 then .ok (.Integer n)
      else (pyFloatOfInt n).map .Float := by
  simp only [to_db_value, if_neg hs]
  rw [h]

theorem to_db_value_int_none {s : String} (hs : s ≠ "")
    (h1 : pyIntOfString (stripCurrency s) = none) :
    to_db_value s =
      match pyFloatOfString (stripCurrency s) with
      | some f => .ok (.Float f)
      | none => .ok (.Text s) := by
  simp only [to_db_value, if_neg hs]
  rw [h1]

set_option maxRecDepth 100000

/-! ## Claim theorems -/

/-- C1, counterexample: `to_db_value` is *not* total.  On the 401-digit
cell `"1" ++ 400 * "0"` (the integer `10^400`), the integer parse succeeds,
the value is outside the signed 64-bit range, and `float(value)` raises
`OverflowError` — which `except ValueError` does not catch — so the call
raises instead of returning a `TypedValue`. -/
theorem c1_counterexample :
    to_db_value ⟨'1' :: List.replicate 400 '0'⟩ =
      .error "OverflowError: int too large to convert to float" ∧
    ¬∃ v, to_db_value ⟨'1' :: List.replicate 400 '0'⟩ = .ok v := by
  have h : to_db_value ⟨'1' :: List.replicate 400 '0'⟩ =
      .error "OverflowError: int too large to convert to float" := by decide
  refine ⟨h, ?_⟩
  rintro ⟨v, hv⟩
  rw [h] at hv
  cases hv

/-- C1, amended: `to_db_value` returns exactly one `TypedValue` for every
input string whose integer parse does not produce a value of magnitude at
least `2^1024 - 2^970` (`doubleOverflowBound`); an integer-parsed value
outside the signed 64-bit range `[-2^63, 2^63)` is converted to `Float`
when its magnitude is below that threshold, and raises `OverflowError`
when it is not. -/
theorem c1_totality_amended (s : String) :
    ((∀ n : Int, pyIntOfString (stripCurrency s) = some n →
        n.natAbs < doubleOverflowBound ∨ (-2 ^ 63 ≤ n ∧ n < 2 ^ 63)) →
      ∃! r : TypedValue, to_db_value s = .ok r) ∧
    (∀ n : Int, pyIntOfString (stripCurrency s) = some n →
      ¬(-2 ^ 63 ≤ n ∧ n < 2 ^ 63) → n.natAbs < doubleOverflowBound →
      to_db_value s = .ok (.Float (.finite (n : ℚ)))) ∧
    (∀ n : Int, pyIntOfString (stripCurrency s) = some n →
      ¬(-2 ^ 63 ≤ n ∧ n < 2 ^ 63) → doubleOverflowBound ≤ n.natAbs →
      to_db_value s = .error "OverflowError: int too large to convert to float") := by
  by_cases hs : s = ""
  · subst hs
    have hnone : pyIntOfString (stripCurrency "") = none := by decide
    refine ⟨fun _ => ⟨.Null, rfl, fun y hy => ?_⟩, fun n hn => ?_, fun n hn => ?_⟩
    · exact (Except.ok.inj hy).symm
    · rw [hnone] at hn; exact Option.noConfusion hn
    · rw [hnone] at hn; exact Option.noConfusion hn
  · rcases hint : pyIntOfString (stripCurrency s) with - | n
    · have hok : ∃ r, to_db_value s = .ok r := by
        rcases hfloat : pyFloatOfString (stripCurrency s) with - | f
        · exact ⟨.Text s, by rw [to_db_value_int_none hs hint, hfloat]⟩
        · exact ⟨.Float f, by rw [to_db_value_int_none hs hint, hfloat]⟩
      obtain ⟨r, hr⟩ := hok
      refine ⟨fun _ => ⟨r, hr, fun y hy => ?_⟩, fun n hn => ?_, fun n hn => ?_⟩
      · rw [hr] at hy; exact (Except.ok.inj hy).symm
      · exact Option.noConfusion hn
      · exact Option.noConfusion hn
    · have hbase := to_db_value_int_some hs hint
      by_cases hrange : -2 ^ 63 ≤ n ∧ n < 2 ^ 63
      · have heq : to_db_value s = .ok (.Integer n) := by
          rw [hbase, if_pos hrange]
        refine ⟨fun _ => ⟨.Integer n, heq, fun y hy => ?_⟩,
          fun m hm hmr _ => ?_, fun m hm hmr _ => ?_⟩
        · rw [heq] at hy; exact (Except.ok.inj hy).symm
        · cases Option.some.inj hm; exact absurd hrange hmr
        · cases Option.some.inj hm; exact absurd hrange hmr
      · by_cases hbound : n.natAbs < doubleOverflowBound
        · have heq : to_db_value s = .ok (.Float (.finite (n : ℚ))) := by
            rw [hbase, if_neg hrange, pyFloatOfInt, if_neg (Nat.not_le.mpr hbound)]
            rfl
          refine ⟨fun _ => ⟨.Float (.finite (n : ℚ)), heq, fun y hy => ?_⟩,
            fun m hm _ _ => ?_, fun m hm hmr hmb => ?_⟩
          · rw [heq] at hy; exact (Except.ok.inj hy).symm
          · cases Option.some.inj hm; exact heq
          · cases Option.some.inj hm
            exact absurd hmb (Nat.not_le.mpr hbound)
        · have heq : to_db_value s =
              .error "OverflowError: int too large to convert to float" := by
            rw [hbase, if_neg hrange, pyFloatOfInt, if_pos (Nat.not_lt.mp hbound)]
            rfl
          refine ⟨fun hall => ?_, fun m hm hmr hmb => ?_, fun m hm _ _ => ?_⟩
          · rcases hall n rfl with hb | hr
            · exact absurd hb hbound
            · exact absurd hr hrange
          · cases Option.some.inj hm
            exact absurd hmb hbound
          · cases Option.some.inj hm; exact heq

/-- C1, witness for `c1_totality_amended` at the cell `"5"`. -/
theorem c1_totality_amended_witness :
    ∃! r : TypedValue, to_db_value "5" = .ok r := by
  apply (c1_totality_amended "5").1
  intro n hn
  have h5 : pyIntOfString (stripCurrency "5") = some 5 := by decide
  cases Option.some.inj (h5.symm.trans hn)
  right
  constructor <;> decide

/-- C2: `to_db_value` maps `""` to `Null`, `"$100"` to `Integer 100`,
`"9223372036854775808"` (`2^63`) to `Float` and not to any `Integer`,
`"3.14"` to `Float 3.14`, `"abc"` to `Text "abc"`; and whenever both
numeric parses of the currency-stripped cell fail on a nonempty cell,
the result is `Text` of the original cell, currency symbol included
(`"$abc"` yields `Text "$abc"`). -/
theorem c2_coercion_examples_and_text_fallback :
    to_db_value "" = .ok .Null ∧
    to_db_value "$100" = .ok (.Integer 100) ∧
    to_db_value "9223372036854775808" =
      .ok (.Float (.finite ((9223372036854775808 : Int) : ℚ))) ∧
    (∀ n : Int, to_db_value "9223372036854775808" ≠ .ok (.Integer n)) ∧
    to_db_value "3.14" = .ok (.Float (.finite (157 / 50))) ∧
    to_db_value "abc" = .ok (.Text "abc") ∧
    (∀ s : String, s ≠ "" → pyIntOfString (stripCurrency s) = none →
      pyFloatOfString (stripCurrency s) = none → to_db_value s = .ok (.Text s)) ∧
    to_db_value "$abc" = .ok (.Text "$abc") := by
  have h63 : to_db_value "9223372036854775808" =
      .ok (.Float (.finite ((9223372036854775808 : Int) : ℚ))) := by decide
  refine ⟨by decide, by decide, h63, ?_, ?_, by decide, ?_, by decide⟩
  · intro n hcon
    rw [h63] at hcon
    cases Except.ok.inj hcon
  · have h : to_db_value "3.14"
        = .ok (.Float (.finite ((((3 : Nat) : ℚ) + ((14 : Nat) : ℚ) / 10 ^ 2) * 10 ^ (0 : ℤ)))) := rfl
    rw [h]
    norm_num
  · intro s hs h1 h2
    rw [to_db_value_int_none hs h1, h2]

/-- C2, witness for the universally quantified fallback clause of
`c2_coercion_examples_and_text_fallback`, at the cell `"€x"`. -/
theorem c2_coercion_examples_and_text_fallback_witness :
    ("€x" ≠ "" ∧ pyIntOfString (stripCurrency "€x") = none ∧
      pyFloatOfString (stripCurrency "€x") = none) ∧
    to_db_value "€x" = .ok (.Text "€x") :=
  ⟨⟨by decide, by decide, by decide⟩,
    c2_coercion_examples_and_text_fallback.2.2.2.2.2.2.1 "€x"
      (by decide) (by decide) (by decide)⟩

/-- C10: a cell consisting of exactly one currency symbol maps to `Text`
of that original one-character cell, not to `Null` — the empty-string rule
fires only before currency stripping, and the empty remainder fails both
numeric parses, so the fallback returns the original cell. -/
theorem c10_single_currency_symbol_is_text (s : String) (c : Char)
    (hdata : s.data = [c]) (hcur : c ∈ currencyChars) :
    to_db_value s = .ok (.Text s) ∧ to_db_value s ≠ .ok .Null := by
  have hs : s ≠ "" := by
    intro hcon
    rw [hcon] at hdata
    cases hdata
  have hstrip : stripCurrency s = "" := by
    rw [stripCurrency, hdata]
    simp [hcur]
  have h1 : pyIntOfString (stripCurrency s) = none := by
    rw [hstrip]; decide
  have h2 : pyFloatOfString (stripCurrency s) = none := by
    rw [hstrip]; decide
  have heq : to_db_value s = .ok (.Text s) := by
    rw [to_db_value_int_none hs h1, h2]
  refine ⟨heq, ?_⟩
  intro hcon
  rw [heq] at hcon
  cases Except.ok.inj hcon

/-- C10, witness for `c10_single_currency_symbol_is_text` at `"$"`. -/
theorem c10_single_currency_symbol_is_text_witness :
    to_db_value "$" = .ok (.Text "$") ∧ to_db_value "$" ≠ .ok .Null :=
  c10_single_currency_symbol_is_text "$" '$' (by decide) (by decide)

/-- C4: for a header row with no empty entries, `to_column_names` returns
a list of the same length, with pairwise distinct entries, none of them
empty; and the repeated-base example `["Total", "total"]` yields
`["total", "total2"]` (numeric suffixes start at 2). -/
theorem c4_column_names_parallel_unique_nonempty (row : List String)
    (hrow : "" ∉ row) :
    (to_column_names row).length = row.length ∧
    (to_column_names row).Nodup ∧
    (∀ name ∈ to_column_names row, name ≠ "") ∧
    to_column_names ["Total", "total"] = ["total", "total2"] := by
  refine ⟨to_column_names_aux_length row [],
    to_column_names_aux_nodup row [], ?_, by decide⟩
  exact to_column_names_aux_ne_empty row []
    (fun s hs hse => hrow (hse ▸ hs))

/-- C4, witness for `c4_column_names_parallel_unique_nonempty` at
`["Total", "total"]`. -/
theorem c4_column_names_parallel_unique_nonempty_witness :
    ("" ∉ (["Total", "total"] : List String)) ∧
    (to_column_names ["Total", "total"]).length =
      (["Total", "total"] : List String).length ∧
    (to_column_names ["Total", "total"]).Nodup ∧
    (∀ name ∈ to_column_names ["Total", "total"], name ≠ "") ∧
    to_column_names ["Total", "total"] = ["total", "total2"] :=
  ⟨by decide, c4_column_names_parallel_unique_nonempty ["Total", "total"] (by decide)⟩

/-- C5, counterexample: normalization *does* collapse leading and trailing
underscore runs.  The header `"__a__"` (already of the claimed normalized
shape after character substitution) is reduced to `"_a_"`, not kept as
`"__a__"`. -/
theorem c5_counterexample :
    to_column_names ["__a__"] = ["_a_"] ∧
    to_column_names ["__a__"] ≠ ["__a__"] := by
  constructor
  · decide
  · decide

/-- C5, amended: each header is normalized by lowercasing it and replacing
every character outside `[a-z0-9_]` with `'_'` (`substituteChar`), after
which *every* maximal run of underscores — leading and trailing runs
included — is collapsed to a single underscore; a header normalizing to
`"__a__"` after substitution therefore becomes `"_a_"`. -/
theorem c5_normalization_collapses_every_run :
    (∀ s : String,
      normalizeHeader s = ⟨collapseUnderscoreRuns (s.data.map substituteChar)⟩) ∧
    normalizeHeader "__a__" = "_a_" := by
  constructor
  · intro s
    rw [normalizeHeader, removeReUnderscore_eq_collapse]
  · decide

theorem print_table_length_cons (r : List String) (t : List (List String)) :
    (print_table (r :: t)).length = t.length + 1 := by
  rw [print_table]
  simp

/-- C8: a header row containing an empty field makes `import_` fail with
the structural error naming the 1-based column index of the (first) empty
field, before any operation — in particular the `CREATE TABLE` — reaches
the store; the reported index really points at an empty field. -/
theorem c8_empty_header_aborts (headerRow : List String) (tableName : String)
    (dataRows : List (List String)) (h : "" ∈ headerRow) :
    import_ headerRow tableName dataRows =
      { msgs := [], ops := [],
        err := some ("There is no header in row 1, column " ++
          natRepr (headerRow.indexOf "" + 1)) } ∧
    headerRow[headerRow.indexOf ""]? = some "" := by
  constructor
  · simp only [import_, if_pos h]
  · rw [List.getElem?_eq_getElem (List.indexOf_lt_length.mpr h),
      List.getElem_indexOf]

/-- C8, witness for `c8_empty_header_aborts` at the header
`["a", "", "b"]` (empty field in column 2). -/
theorem c8_empty_header_aborts_witness :
    import_ ["a", "", "b"] "t" [["x"]] =
      { msgs := [], ops := [],
        err := some "There is no header in row 1, column 2" } ∧
    (["a", "", "b"] : List String)[(["a", "", "b"] : List String).indexOf ""]? =
      some "" := by
  have h := c8_empty_header_aborts ["a", "", "b"] "t" [["x"]] (by decide)
  exact ⟨h.1.trans (by decide), h.2⟩

/-- C3 (code bug): the exporter writes each row as it is pulled and prints
progress, but when the re-executed query yields zero rows the loop never
binds `index`, and the completion report
`print(f'Exported {index + 1} row(s).')` raises `UnboundLocalError`
instead of reporting a zero-row total.  With at least one row (second
conjunct) the completion report works as specified. -/
theorem c3_export_zero_rows_unbound_local :
    export_ ["column"] ([] : List (List TypedValue)) =
      { fileHeader := ["column"], fileRows := [], msgs := [],
        err := some "UnboundLocalError: cannot access local variable index where it is not associated with a value" } ∧
    export_ ["column"] [[TypedValue.Null]] =
      { fileHeader := ["column"], fileRows := [[TypedValue.Null]],
        msgs := ["Exported 1 row(s)."], err := none } := by
  constructor
  · decide
  · decide

/-- C6: on a row-producing statement (`description` present),
`execute_sql` returns `True` and prints the header line, at most 20 data
lines, and one summary line; a 25-row result prints exactly 20 data lines
and reports truncation, a 20-row result reports the exact total (not
truncation), and a zero-row result is reported with its own distinct
message. -/
theorem c6_preview_truncation (header : List String)
    (resultRows : List (List ResultCell)) (rowcount : Int) :
    (execute_sql (some header) resultRows rowcount).2 = true ∧
    (execute_sql (some header) resultRows rowcount).1.length =
      min resultRows.length 20 + 2 ∧
    (resultRows.length = 25 →
      (execute_sql (some header) resultRows rowcount).1.getLast? =
        some "Output first 20 rows." ∧
      (execute_sql (some header) resultRows rowcount).1.length = 22) ∧
    (resultRows.length = 20 →
      (execute_sql (some header) resultRows rowcount).1.getLast? =
        some "Output all 20 row(s).") ∧
    (resultRows.length = 0 →
      (execute_sql (some header) resultRows rowcount).1.getLast? =
        some "Query returned zero rows.") := by
  have hlen : (execute_sql (some header) resultRows rowcount).1.length =
      min resultRows.length 20 + 2 := by
    simp only [execute_sql, List.length_append, List.length_cons, List.length_nil]
    rw [print_table_length_cons]
    simp [List.length_take, Nat.min_comm]
  have hlast : (execute_sql (some header) resultRows rowcount).1.getLast? =
      some (if ¬((resultRows.take 20).map fun row =>
              row.map fun value => match value with
                | some s => s | none => "NULL").isEmpty then
          if 20 < resultRows.length then "Output first 20 rows."
          else "Output all " ++ natRepr ((resultRows.take 20).map fun row =>
              row.map fun value => match value with
                | some s => s | none => "NULL").length ++ " row(s)."
        else "Query returned zero rows.") := by
    simp only [execute_sql]
    rw [List.getLast?_concat]
  refine ⟨rfl, hlen, fun h25 => ⟨?_, ?_⟩, fun h20 => ?_, fun h0 => ?_⟩
  · have hmaplen : ((resultRows.take 20).map fun row =>
        row.map fun value => match value with
          | some s => s | none => "NULL").length = 20 := by
      rw [List.length_map, List.length_take, h25]
      decide
    have hne : ((resultRows.take 20).map fun row =>
        row.map fun value => match value with
          | some s => s | none => "NULL").isEmpty = false := by
      cases hemp : ((resultRows.take 20).map fun row =>
          row.map fun value => match value with
            | some s => s | none => "NULL").isEmpty
      · rfl
      · exfalso
        rw [List.isEmpty_iff.mp hemp] at hmaplen
        cases hmaplen
    rw [hlast, hne]
    simp [h25]
  · rw [hlen, h25]
    decide
  · have hmaplen : ((resultRows.take 20).map fun row =>
        row.map fun value => match value with
          | some s => s | none => "NULL").length = 20 := by
      rw [List.length_map, List.length_take, h20]
      decide
    have hne : ((resultRows.take 20).map fun row =>
        row.map fun value => match value with
          | some s => s | none => "NULL").isEmpty = false := by
      cases hemp : ((resultRows.take 20).map fun row =>
          row.map fun value => match value with
            | some s => s | none => "NULL").isEmpty
      · rfl
      · exfalso
        rw [List.isEmpty_iff.mp hemp] at hmaplen
        cases hmaplen
    rw [hlast, hne, hmaplen]
    simp only [h20, Nat.lt_irrefl, if_false, Bool.false_eq_true, not_false_eq_true, if_true]
    decide
  · rw [hlast]
    rw [List.length_eq_zero.mp h0]
    rfl

/-- C6, witness for `c6_preview_truncation` at a 25-row result, a 20-row
result and a zero-row result. -/
theorem c6_preview_truncation_witness :
    ((execute_sql (some ["c"]) (List.replicate 25 [(none : ResultCell)]) 0).1.getLast? =
      some "Output first 20 rows." ∧
     (execute_sql (some ["c"]) (List.replicate 25 [(none : ResultCell)]) 0).1.length = 22) ∧
    (execute_sql (some ["c"]) (List.replicate 20 [(none : ResultCell)]) 0).1.getLast? =
      some "Output all 20 row(s)." ∧
    (execute_sql (some ["c"]) ([] : List (List ResultCell)) 0).1.getLast? =
      some "Query returned zero rows." :=
  ⟨(c6_preview_truncation ["c"] (List.replicate 25 [(none : ResultCell)]) 0).2.2.1
      (by simp),
   (c6_preview_truncation ["c"] (List.replicate 20 [(none : ResultCell)]) 0).2.2.2.1
      (by simp),
   (c6_preview_truncation ["c"] ([] : List (List ResultCell)) 0).2.2.2.2 rfl⟩

theorem mapM_rowValues_length {rows : List (List String)}
    (h : ∀ r ∈ rows, ∃ vs, rowValues r = .ok vs) :
    ∃ out : List (List TypedValue),
      rows.mapM rowValues = .ok out ∧ out.length = rows.length := by
  induction rows with
  | nil => exact ⟨[], rfl, rfl⟩
  | cons r t ih =>
    obtain ⟨vs, hvs⟩ := h r (List.mem_cons_self r t)
    obtain ⟨out, hout, hlen⟩ := ih fun x hx => h x (List.mem_cons_of_mem _ hx)
    refine ⟨vs :: out, ?_, by simp [hlen]⟩
    rw [List.mapM_cons, hvs, hout]
    rfl

theorem importLoop_nil (tn : String) (cols : List String) (count : Nat) :
    importLoop tn cols [] count = ([], [], count, none) := by
  rw [importLoop]
  rfl

theorem importLoop_step (tn : String) (cols : List String)
    (remaining : List (List String)) (count : Nat) (hne : remaining ≠ [])
    (vs : List (List TypedValue))
    (hmap : (remaining.take 10000).mapM rowValues = .ok vs) :
    importLoop tn cols remaining count =
      ((if count > 0 then [importProgressMsg count] else []) ++
        (importLoop tn cols (remaining.drop 10000)
          (count + (remaining.take 10000).length)).1,
       .executemany (insertSql tn cols) vs :: .commit ::
        (importLoop tn cols (remaining.drop 10000)
          (count + (remaining.take 10000).length)).2.1,
       (importLoop tn cols (remaining.drop 10000)
          (count + (remaining.take 10000).length)).2.2.1,
       (importLoop tn cols (remaining.drop 10000)
          (count + (remaining.take 10000).length)).2.2.2) := by
  have hne' : (remaining.take 10000).isEmpty = false := by
    simp [List.isEmpty_iff, List.take_eq_nil_iff, hne]
  rw [importLoop]
  simp only [hne', Bool.false_eq_true, if_false, hmap]

/-- C7: on 10,003 data rows (whose cells all coerce without raising),
`import_` creates the table, commits, then issues exactly two
parameterized multi-row inserts — one of 10,000 rows and one of 3 rows —
each followed by its own commit, prints exactly one progress message
(the cumulative count 10,000, at the start of the second batch), and
reports the final total of 10,003 rows. -/
theorem c7_batched_import (header : List String) (tableName : String)
    (rows : List (List String)) (hh : "" ∉ header) (ht : '"' ∉ tableName.data)
    (hlen : rows.length = 10003)
    (hok : ∀ r ∈ rows, ∃ vs, rowValues r = .ok vs) :
    ∃ b1 b2 : List (List TypedValue), b1.length = 10000 ∧ b2.length = 3 ∧
      import_ header tableName rows =
        { msgs := [importProgressMsg 10000, "Imported 10003 row(s).",
            "Imported table \"" ++ tableName ++ "\" with columns: " ++
              String.intercalate ", " (to_column_names header) ++ "."],
          ops := [.execute (createTableSql tableName (to_column_names header)),
            .commit,
            .executemany (insertSql tableName (to_column_names header)) b1,
            .commit,
            .executemany (insertSql tableName (to_column_names header)) b2,
            .commit],
          err := none } := by
  have hne1 : rows ≠ [] := by
    intro hcon
    rw [hcon] at hlen
    cases hlen
  have htake1 : (rows.take 10000).length = 10000 := by
    rw [List.length_take, hlen]
    decide
  have hdrop1 : (rows.drop 10000).length = 3 := by
    rw [List.length_drop, hlen]
  have hne2 : rows.drop 10000 ≠ [] := by
    intro hcon
    rw [hcon] at hdrop1
    cases hdrop1
  have htake2 : (rows.drop 10000).take 10000 = rows.drop 10000 :=
    List.take_of_length_le (by rw [hdrop1]; omega)
  have hdrop2 : (rows.drop 10000).drop 10000 = [] :=
    List.drop_eq_nil_of_le (by rw [hdrop1]; omega)
  obtain ⟨b1, hb1, hb1len⟩ :=
    mapM_rowValues_length fun r hr => hok r (List.take_subset 10000 rows hr)
  obtain ⟨b2, hb2, hb2len⟩ :=
    mapM_rowValues_length fun r hr => hok r (List.drop_subset 10000 rows hr)
  have hstep2 := importLoop_step tableName (to_column_names header)
    (rows.drop 10000) 10000 hne2 b2 (by rw [htake2]; exact hb2)
  rw [hdrop2, importLoop_nil, htake2, hdrop1] at hstep2
  have hstep1 := importLoop_step tableName (to_column_names header)
    rows 0 hne1 b1 hb1
  rw [htake1, hstep2] at hstep1
  refine ⟨b1, b2, by rw [hb1len, htake1], by rw [hb2len, hdrop1], ?_⟩
  have himp : import_ header tableName rows =
      { msgs := (importLoop tableName (to_column_names header) rows 0).1 ++
          ["Imported " ++
            natRepr (importLoop tableName (to_column_names header) rows 0).2.2.1 ++
              " row(s).",
           "Imported table \"" ++ tableName ++ "\" with columns: " ++
             String.intercalate ", " (to_column_names header) ++ "."],
        ops := .execute (createTableSql tableName (to_column_names header)) ::
          .commit :: (importLoop tableName (to_column_names header) rows 0).2.1,
        err := (importLoop tableName (to_column_names header) rows 0).2.2.2 } := by
    simp only [import_, if_neg hh, if_neg (by simpa using ht), hstep1]
    rfl
  rw [himp, hstep1]
  have h10003 : natRepr 10003 = "10003" := by decide
  simp [h10003]

/-- C7, witness for `c7_batched_import`: 10,003 rows of one empty cell
imported into table `"t"` with header `["h"]`. -/
theorem c7_batched_import_witness :
    ∃ b1 b2 : List (List TypedValue), b1.length = 10000 ∧ b2.length = 3 ∧
      import_ ["h"] "t" (List.replicate 10003 [""]) =
        { msgs := [importProgressMsg 10000, "Imported 10003 row(s).",
            "Imported table \"" ++ "t" ++ "\" with columns: " ++
              String.intercalate ", " (to_column_names ["h"]) ++ "."],
          ops := [.execute (createTableSql "t" (to_column_names ["h"])),
            .commit,
            .executemany (insertSql "t" (to_column_names ["h"])) b1,
            .commit,
            .executemany (insertSql "t" (to_column_names ["h"])) b2,
            .commit],
          err := none } :=
  c7_batched_import ["h"] "t" (List.replicate 10003 [""]) (by decide) (by decide)
    (List.length_replicate 10003 [""]) fun r hr => by
      rw [List.eq_of_mem_replicate hr]
      exact ⟨[.Null], by decide⟩

/-- C9: `last_query` starts as `None` and is overwritten only by a
successful row-producing statement: a raising statement and a successful
mutating statement leave it unchanged, as does the `import` command; the
`export` command with no remembered query prints only the no-op message
and never calls `export` (so no file is created); and any step that
changes `last_query` is a non-command line whose execution returned the
row-producing flag. -/
theorem c9_last_query_lifecycle (env : ReplEnv) :
    run_repl env [] = (none, [], []) ∧
    (∀ last q e, q ≠ "import" → q ≠ "export" → env.sqlOutcome q = .error e →
      replStep env last q = (last, ["Error: " ++ e], [])) ∧
    (∀ last q msgs, q ≠ "import" → q ≠ "export" →
      env.sqlOutcome q = .ok (msgs, false) → replStep env last q = (last, msgs, [])) ∧
    (∀ last q msgs, q ≠ "import" → q ≠ "export" →
      env.sqlOutcome q = .ok (msgs, true) → replStep env last q = (some q, msgs, [])) ∧
    replStep env none "export" =
      (none, ["You must enter a SQL query before exporting."], []) ∧
    (∀ last, (replStep env last "import").1 = last) ∧
    (∀ last q, (replStep env last q).1 ≠ last →
      ∃ msgs, q ≠ "import" ∧ q ≠ "export" ∧ env.sqlOutcome q = .ok (msgs, true) ∧
        (replStep env last q).1 = some q) := by
  refine ⟨rfl, ?_, ?_, ?_, rfl, ?_, ?_⟩
  · intro last q e hqi hqe hout
    simp [replStep, hqi, hqe, hout]
  · intro last q msgs hqi hqe hout
    simp [replStep, hqi, hqe, hout]
  · intro last q msgs hqi hqe hout
    simp [replStep, hqi, hqe, hout]
  · intro last
    cases hout : env.importOutcome with
    | ok msgs => simp [replStep, hout]
    | error e => simp [replStep, hout]
  · intro last q hchanged
    by_cases hqi : q = "import"
    · exfalso
      apply hchanged
      subst hqi
      cases hout : env.importOutcome with
      | ok msgs => simp [replStep, hout]
      | error e => simp [replStep, hout]
    · by_cases hqe : q = "export"
      · exfalso
        apply hchanged
        subst hqe
        cases last with
        | none => simp [replStep]
        | some q' =>
          cases hout : env.exportOutcome q' with
          | ok msgs => simp [replStep, hout]
          | error e => simp [replStep, hout]
      · cases hout : env.sqlOutcome q with
        | error e =>
          exfalso
          apply hchanged
          simp [replStep, hqi, hqe, hout]
        | ok p =>
          rcases p with ⟨msgs, flag⟩
          cases flag with
          | false =>
            exfalso
            apply hchanged
            simp [replStep, hqi, hqe, hout]
          | true =>
            exact ⟨msgs, hqi, hqe, rfl, by simp [replStep, hqi, hqe, hout]⟩

/-- C9, witness for `c9_last_query_lifecycle` with a concrete environment:
a failing statement leaves `last_query` unchanged, a row-producing one
overwrites it. -/
theorem c9_last_query_lifecycle_witness :
    replStep ⟨fun q => if q = "q1" then .ok (["r"], true) else .error "boom",
        .ok ["imp"], fun _ => .ok ["exp"]⟩ (some "q0") "q2" =
      (some "q0", ["Error: " ++ "boom"], []) ∧
    replStep ⟨fun q => if q = "q1" then .ok (["r"], true) else .error "boom",
        .ok ["imp"], fun _ => .ok ["exp"]⟩ (some "q0") "q1" =
      (some "q1", ["r"], []) :=
  ⟨(c9_last_query_lifecycle _).2.1 (some "q0") "q2" "boom"
      (by decide) (by decide) (by decide),
   (c9_last_query_lifecycle _).2.2.2.1 (some "q0") "q1" ["r"]
      (by decide) (by decide) (by decide)⟩
